import Mathlib

/-!
Shallow embedding of the LiSA path-tracing shader core
(`src/optixLisa/src/shader.cu` and `src/optixLisa/shader2.cu`).

Floating-point scalars are modelled as real numbers; `unsigned int`
seeds are modelled as naturals reduced modulo `2^32` where the C code
relies on wraparound.  The scene (the OptiX traversal handle) is
modelled as an oracle: for occlusion rays, a function from ray origin
and direction to the material of the first object hit (`none` on a
miss); for radiance rays, an abstract state transformer standing for
one `optixTrace` call together with its hit/miss programs.
-/

set_option maxRecDepth 8000

noncomputable section

namespace LiSA

/-- Component-wise 3-vector of real scalars, modelling CUDA `float3`. -/
structure Vec3 where
  x : ℝ
  y : ℝ
  z : ℝ

/-- Component-wise 2-vector of real scalars, modelling CUDA `float2`. -/
structure Vec2 where
  x : ℝ
  y : ℝ

theorem Vec3.ext_iff' (a b : Vec3) : a = b ↔ a.x = b.x ∧ a.y = b.y ∧ a.z = b.z := by
  constructor
  · intro h; subst h; exact ⟨rfl, rfl, rfl⟩
  · rintro ⟨h1, h2, h3⟩; cases a; cases b; simp_all

def add3 (a b : Vec3) : Vec3 := ⟨a.x + b.x, a.y + b.y, a.z + b.z⟩

def sub3 (a b : Vec3) : Vec3 := ⟨a.x - b.x, a.y - b.y, a.z - b.z⟩

/-- Component-wise product, modelling `float3 * float3` of `sutil/vec_math.h`. -/
def mul3 (a b : Vec3) : Vec3 := ⟨a.x * b.x, a.y * b.y, a.z * b.z⟩

/-- Scalar multiple, modelling `float * float3`. -/
def smul (t : ℝ) (a : Vec3) : Vec3 := ⟨t * a.x, t * a.y, t * a.z⟩

def neg3 (a : Vec3) : Vec3 := ⟨-a.x, -a.y, -a.z⟩

def dot3 (a b : Vec3) : ℝ := a.x * b.x + a.y * b.y + a.z * b.z

def cross3 (a b : Vec3) : Vec3 :=
  ⟨a.y * b.z - a.z * b.y, a.z * b.x - a.x * b.z, a.x * b.y - a.y * b.x⟩

def zero3 : Vec3 := ⟨0, 0, 0⟩

def ones3 : Vec3 := ⟨1, 1, 1⟩

/-- Component-wise order on colors/vectors. -/
def vecLE3 (a b : Vec3) : Prop := a.x ≤ b.x ∧ a.y ≤ b.y ∧ a.z ≤ b.z

/-- `normalize` of `sutil/vec_math.h`: divide by the Euclidean length. -/
noncomputable def normalize3 (v : Vec3) : Vec3 :=
  smul (1 / Real.sqrt (dot3 v v)) v

noncomputable def normalize2 (v : Vec2) : Vec2 :=
  ⟨v.x * (1 / Real.sqrt (v.x * v.x + v.y * v.y)),
   v.y * (1 / Real.sqrt (v.x * v.x + v.y * v.y))⟩

/-- `faceforward(n, i, nref)` of `sutil/vec_math.h`:
`n * copysignf(1.0f, dot(i, nref))`. -/
def faceforward (n i nref : Vec3) : Vec3 :=
  if 0 ≤ dot3 i nref then n else neg3 n

/-- `clamp(f, a, b) = fminf(b, fmaxf(a, f))` of `cuda/helpers.h`. -/
def clampR (f a b : ℝ) : ℝ := min b (max a f)

/-- `lerp(a, b, t) = a + t*(b-a)` of `sutil/vec_math.h`, on `float3`. -/
def lerpV (a b : Vec3) (t : ℝ) : Vec3 := add3 a (smul t (sub3 b a))

/-! ### Random number generation

Modelled from the spec: the random generator lives in the external
header `random.h`, which is not part of `src/`.  Per §4.1 of the spec it
is a deterministic, seed-driven stream of uniform scalars in `[0,1)`
(a linear congruential generator on 32-bit state, returning 24-bit
mantissa fractions), and the per-pixel seed is a deterministic
pixel-and-frame-dependent hash (TEA-style mixing of the pixel linear
index with the frame index). -/

/-- Modelled from the spec: the LCG state advance of the external
`random.h` (32-bit wraparound arithmetic). -/
def lcg (seed : ℕ) : ℕ := (1664525 * seed + 1013904223) % 2 ^ 32

/-- Modelled from the spec: `rnd` of the external `random.h`: advance the
seed and return a uniform scalar in `[0,1)` built from the low 24 bits. -/
def rnd (seed : ℕ) : ℝ × ℕ :=
  (((lcg seed % 2 ^ 24 : ℕ) : ℝ) / 2 ^ 24, lcg seed)

/-- `rng` (`shader.cu` lines 48–50 / `shader2.cu` lines 42–44):
`rnd(seed) * 2.0f - 1.0f`, a signed sample in `[-1,1)`. -/
def rng (seed : ℕ) : ℝ × ℕ :=
  ((rnd seed).1 * 2 - 1, (rnd seed).2)

/-- Modelled from the spec: one round of the TEA-style seed hash of the
external `random.h` (all arithmetic modulo `2^32`). -/
def teaStep (p : ℕ × ℕ × ℕ) : ℕ × ℕ × ℕ :=
  let s0 := (p.2.2 + 0x9e3779b9) % 2 ^ 32
  let v1 := p.2.1
  let v0 := (p.1 +
    Nat.xor (Nat.xor ((v1 * 16 + 0xa341316c) % 2 ^ 32) ((v1 + s0) % 2 ^ 32))
      ((v1 / 32 + 0xc8013ea4) % 2 ^ 32)) % 2 ^ 32
  let v1' := (v1 +
    Nat.xor (Nat.xor ((v0 * 16 + 0xad90777d) % 2 ^ 32) ((v0 + s0) % 2 ^ 32))
      ((v0 / 32 + 0x7e95761e) % 2 ^ 32)) % 2 ^ 32
  (v0, v1', s0)

/-- Modelled from the spec: `tea<4>` of the external `random.h`, the
deterministic pixel-and-frame-dependent seed hash. -/
def tea (val0 val1 : ℕ) : ℕ :=
  (teaStep (teaStep (teaStep (teaStep (val0, val1, 0))))).1

/-! ### Data model -/

/-- `Material` of `structs.hh` as used by the shaders. -/
structure Material where
  diffuse_color : Vec3
  emission_color : Vec3
  emit : Bool

/-- The `Intersection` path state (`shader.cu` lines 30–40). -/
structure Intersection where
  material : Material
  normal : Vec3
  xyz : Vec3
  mask_color : Vec3
  accum_color : Vec3
  hit : Bool
  done : Bool
  seed : ℕ

/-- A freshly constructed `Intersection`: the C++ default member
initializers set `mask_color = (1,1,1)`, `accum_color = (0,0,0)`,
`hit = false`, `done = false`; `material`, `normal`, `xyz` and `seed`
are uninitialized in C++ and modelled as zeros (they are never read
before being written along the paths we verify). -/
def freshInter : Intersection :=
  { material := ⟨zero3, zero3, false⟩
    normal := zero3
    xyz := zero3
    mask_color := ones3
    accum_color := zero3
    hit := false
    done := false
    seed := 0 }

/-! ### Occlusion programs -/

/-- `__miss__occlusion` (both shader variants, lines 176–179). -/
def missOcclusion (s : Intersection) : Intersection := { s with hit := false }

/-- `__closesthit__occlusion` (both shader variants, lines 181–188):
only when the hit material is an emitter does it record the material and
set `hit`; otherwise the state is untouched. -/
def closesthitOcclusion (m : Material) (s : Intersection) : Intersection :=
  if m.emit then { s with material := m, hit := true } else s

/-- One occlusion `optixTrace` call with
`OPTIX_RAY_FLAG_TERMINATE_ON_FIRST_HIT`: `res` is the material of the
first object the ray encounters (`none` on a miss); the corresponding
hit or miss program is run on the payload state. -/
def trace_occlusion (res : Option Material) (s : Intersection) : Intersection :=
  match res with
  | none => missOcclusion s
  | some m => closesthitOcclusion m s

/-! ### Hemisphere sampling -/

/-- The three signed samples drawn by `shoot_ray_hemisphere`, together
with the advanced seed (three `rng` calls). -/
def hemisphere_raw (seed : ℕ) : Vec3 × ℕ :=
  (⟨(rng seed).1, (rng (rng seed).2).1, (rng (rng (rng seed).2).2).1⟩,
   (rng (rng (rng seed).2).2).2)

/-- `shoot_ray_hemisphere` (`shader.cu` lines 52–56): normalize the three
signed samples, then face-forward against the shading normal. -/
def shoot_ray_hemisphere (normal : Vec3) (seed : ℕ) : Vec3 × ℕ :=
  (faceforward (normalize3 (hemisphere_raw seed).1) normal
      (normalize3 (hemisphere_raw seed).1),
   (hemisphere_raw seed).2)

/-- `shoot_ray_hemisphere` (`shader2.cu` lines 46–52): face-forward the
raw sample vector first, normalize afterwards.  It reads and writes the
seed through the `Intersection` it is given. -/
def shoot_ray_hemisphere2 (inter : Intersection) : Vec3 × ℕ :=
  (normalize3 (faceforward (hemisphere_raw inter.seed).1 inter.normal
      (hemisphere_raw inter.seed).1),
   (hemisphere_raw inter.seed).2)

/-! ### Next-event estimation -/

/-- Seed evolution of one hemisphere sample (three `rng` advances). -/
def stepSeed (seed : ℕ) : ℕ := (hemisphere_raw seed).2

/-- The seed in force at the `k`-th probe of the NEE loop. -/
def neeSeed (seed k : ℕ) : ℕ := stepSeed^[k] seed

/-- The direction sampled at the `k`-th probe of the NEE loop
(`shader.cu` variant). -/
def neeDir (normal : Vec3) (seed k : ℕ) : Vec3 :=
  (shoot_ray_hemisphere normal (neeSeed seed k)).1

/-- The `k`-th occlusion probe of the NEE loop hits an emitter first. -/
def emitterAt (scene : Vec3 → Vec3 → Option Material) (normal xyz : Vec3)
    (seed k : ℕ) : Prop :=
  ∃ m, scene xyz (neeDir normal seed k) = some m ∧ m.emit = true

/-- The loop body of `shoot_ray_to_light` (`shader.cu` lines 201–214),
with fuel standing for the remaining iterations of `for i < count`.
Each probe samples a hemisphere direction (advancing the state's seed),
traces an occlusion ray into a **fresh** temporary `Intersection`, and
on `temp.hit` returns `clamp(dot(normal,dir),0,1) * temp.material.emission_color`.
The result also carries the advanced seed and, as instrumentation, the
number of occlusion probes actually issued. -/
def nee_loop (scene : Vec3 → Vec3 → Option Material) (normal xyz : Vec3) :
    ℕ → ℕ → Vec3 × ℕ × ℕ
  | 0, seed => (zero3, seed, 0)
  | n + 1, seed =>
    let dir := (shoot_ray_hemisphere normal seed).1
    let seed1 := (shoot_ray_hemisphere normal seed).2
    let temp := trace_occlusion (scene xyz dir) freshInter
    if temp.hit then
      (smul (clampR (dot3 normal dir) 0 1) temp.material.emission_color, seed1, 1)
    else
      let r := nee_loop scene normal xyz n seed1
      (r.1, r.2.1, r.2.2 + 1)

/-- `count = 7u` of `shoot_ray_to_light`. -/
def nee_count : ℕ := 7

/-- `shoot_ray_to_light` (`shader.cu` lines 201–214): up to `nee_count`
probes from the intersection's shading point; the returned triple is
(sampled radiance, final seed, probes issued). -/
def shoot_ray_to_light (scene : Vec3 → Vec3 → Option Material)
    (inter : Intersection) : Vec3 × ℕ × ℕ :=
  nee_loop scene inter.normal inter.xyz nee_count inter.seed

/-- The loop body of `shoot_ray_to_light` (`shader2.cu` lines 201–214):
unlike the `shader.cu` variant, the occlusion ray is traced into the
**enclosing** path state itself, so a stale `hit`/`material` can survive
a probe that hits a non-emitter. -/
def nee_loop2 (scene : Vec3 → Vec3 → Option Material) :
    ℕ → Intersection → Vec3 × Intersection
  | 0, s => (zero3, s)
  | n + 1, s =>
    let dir := (shoot_ray_hemisphere2 s).1
    let s1 : Intersection := { s with seed := (shoot_ray_hemisphere2 s).2 }
    let s2 := trace_occlusion (scene s1.xyz dir) s1
    if s2.hit then
      (smul (clampR (dot3 s2.normal dir) 0 1) s2.material.emission_color, s2)
    else
      nee_loop2 scene n s2

/-- `shoot_ray_to_light` (`shader2.cu` lines 201–214). -/
def shoot_ray_to_light2 (scene : Vec3 → Vec3 → Option Material)
    (inter : Intersection) : Vec3 × Intersection :=
  nee_loop2 scene nee_count inter

/-! ### Barycentric normals and the radiance programs -/

/-- `barycentric_normal` (`shader.cu` lines 216–239): solve the 2×2
system of projected edge dot-products for the barycentric weights and
interpolate the three vertex normals. -/
def barycentric_normal (hit_point n1 n2 n3 v1 v2 v3 : Vec3) : Vec3 :=
  let edge1 := sub3 v2 v1
  let edge2 := sub3 v3 v1
  let i := sub3 hit_point v1
  let d00 := dot3 edge1 edge1
  let d01 := dot3 edge1 edge2
  let d11 := dot3 edge2 edge2
  let d20 := dot3 i edge1
  let d21 := dot3 i edge2
  let denom := d00 * d11 - d01 * d01
  let w := (d00 * d21 - d01 * d20) / denom
  let v := (d11 * d20 - d01 * d21) / denom
  let u := 1 - v - w
  add3 (add3 (smul u n1) (smul v n2)) (smul w n3)

/-- `barycentric_normal` (`shader2.cu` lines 216–232): solves the same
2×2 system but returns `intersection->normal * (v + w + u)` — the vertex
normals are never read. -/
def barycentric_normal2 (inter : Intersection) (v1 v2 v3 : Vec3) : Vec3 :=
  let edge1 := sub3 v2 v1
  let edge2 := sub3 v3 v1
  let i := sub3 inter.xyz v1
  let d00 := dot3 edge1 edge1
  let d01 := dot3 edge1 edge2
  let d11 := dot3 edge2 edge2
  let d20 := dot3 i edge1
  let d21 := dot3 i edge2
  let denom := d00 * d11 - d01 * d01
  let v := (d11 * d20 - d01 * d21) / denom
  let w := (d00 * d21 - d01 * d20) / denom
  let u := 1 - v - w
  smul (v + w + u) inter.normal

/-- The shading normal stored by `__closesthit__radiance` of
`shader2.cu` (lines 245–255) for a diffuse hit: the face-forwarded
geometric face normal and the hit point `ray_origin + tmax * ray_dir`
are written into the state, which is then passed through
`barycentric_normal2`. -/
def radiance_normal2 (ray_origin ray_dir v1 v2 v3 : Vec3) (tmax : ℝ)
    (s : Intersection) : Vec3 :=
  let n0 := normalize3 (cross3 (sub3 v2 v1) (sub3 v3 v1))
  barycentric_normal2
    { s with normal := faceforward n0 (neg3 ray_dir) n0,
             xyz := add3 ray_origin (smul tmax ray_dir) } v1 v2 v3

/-- `__miss__radiance` (both variants, lines 193–199). -/
def miss_radiance (bg_color : Vec3) (s : Intersection) : Intersection :=
  { s with done := true,
           accum_color := add3 s.accum_color (mul3 bg_color s.mask_color) }

/-- `__closesthit__radiance` (`shader.cu` lines 241–269).  The SBT data
supplies the material and per-triangle vertices/normals; the OptiX ray
context supplies origin, direction and `tmax`; `scene` is the occlusion
oracle used by the nested `shoot_ray_to_light`. -/
def closesthit_radiance (scene : Vec3 → Vec3 → Option Material)
    (mat : Material) (v1 v2 v3 n1 n2 n3 ray_origin ray_dir : Vec3) (tmax : ℝ)
    (s : Intersection) : Intersection :=
  if mat.emit then
    { s with accum_color := add3 s.accum_color (mul3 mat.emission_color s.mask_color),
             done := true }
  else
    let xyz := add3 ray_origin (smul tmax ray_dir)
    let s1 : Intersection :=
      { s with xyz := xyz,
               normal := barycentric_normal xyz n1 n2 n3 v1 v2 v3,
               mask_color := mul3 s.mask_color mat.diffuse_color }
    let r := shoot_ray_to_light scene s1
    { s1 with accum_color := add3 s1.accum_color (mul3 r.1 s1.mask_color),
              seed := r.2.1 }

/-! ### Ray generation -/

/-- `nb_bounces = 3` (`__raygen__rg`). -/
def nb_bounces : ℕ := 3

/-- The bounce loop of `__raygen__rg` (`shader.cu` lines 142–157),
parametrized by the radiance-query oracle `traceR` (one `optixTrace`
with its radiance hit/miss programs, as a state transformer taking the
ray origin and direction).  Arguments: fuel (remaining iterations of
`for j < nb_bounces`), ray origin, ray direction, the sample's
`Intersection`, and the raygen-local `seed`; the result carries the
final state, the final raygen-local seed, and, as instrumentation, the
number of radiance queries issued. -/
def bounce_loop (traceR : Vec3 → Vec3 → Intersection → Intersection) :
    ℕ → Vec3 → Vec3 → Intersection → ℕ → Intersection × ℕ × ℕ
  | 0, _, _, s, seed => (s, seed, 0)
  | j + 1, o, d, s, seed =>
    let s1 := traceR o d { s with done := false }
    if s1.done then (s1, seed, 1)
    else
      let d' := (shoot_ray_hemisphere s1.normal seed).1
      let r := bounce_loop traceR j s1.xyz d' s1 s1.seed
      (r.1, r.2.1, r.2.2 + 1)

/-- The anti-aliasing jitter of `shader.cu` (line 137):
`normalize(make_float2(rng(seed), rng(seed)))`. -/
def aa_jitter (seed : ℕ) : Vec2 × ℕ :=
  (normalize2 ⟨(rng seed).1, (rng (rng seed).2).1⟩, (rng (rng seed).2).2)

/-- The anti-aliasing jitter of `shader2.cu` (line 138):
`make_float2(rng(seed), rng(seed))`, not normalized. -/
def aa_jitter2 (seed : ℕ) : Vec2 × ℕ :=
  (⟨(rng seed).1, (rng (rng seed).2).1⟩, (rng (rng seed).2).2)

/-- One iteration of the `samples_per_launch` loop of `__raygen__rg`
(`shader.cu` lines 132–159): record the sample's starting seed in a
fresh `Intersection`, draw the jitter, build the camera ray, and run the
bounce loop.  Returns the sample's `accum_color` and the raygen-local
seed after the loop. -/
def run_sample (traceR : Vec3 → Vec3 → Intersection → Intersection)
    (size2 idx2 : Vec2) (eye u v w : Vec3) (seed : ℕ) : Vec3 × ℕ :=
  let inter0 : Intersection := { freshInter with seed := seed }
  let jit := (aa_jitter seed).1
  let seed2 := (aa_jitter seed).2
  let d : Vec3 := ⟨(2 * idx2.x + jit.x) / size2.x - 1,
                   (2 * idx2.y + jit.y) / size2.y - 1, 1⟩
  let dir := normalize3 (add3 (add3 (smul d.x u) (smul d.y v)) w)
  let r := bounce_loop traceR nb_bounces eye dir inter0 seed2
  (r.1.accum_color, r.2.1)

/-- The `samples_per_launch` accumulation loop of `__raygen__rg`:
fold `run_sample` over the remaining sample count, summing the per-sample
`accum_color` values. -/
def sample_loop (traceR : Vec3 → Vec3 → Intersection → Intersection)
    (size2 idx2 : Vec2) (eye u v w : Vec3) :
    ℕ → ℕ → Vec3 → Vec3 × ℕ
  | 0, seed, acc => (acc, seed)
  | i + 1, seed, acc =>
    let r := run_sample traceR size2 idx2 eye u v w seed
    sample_loop traceR size2 idx2 eye u v w i r.2 (add3 acc r.1)

/-- The temporal blend at the end of `__raygen__rg` (lines 164–169):
frame 0 stores the estimate directly; frame `n > 0` lerps the previous
stored value toward the estimate with weight `1/(n+1)`. -/
def store_frame (prev est : Vec3) (subframe_index : ℕ) : Vec3 :=
  if 0 < subframe_index then
    lerpV prev est (1 / ((subframe_index : ℝ) + 1))
  else est

/-- The per-launch immutable parameters consumed by `__raygen__rg`. -/
structure LaunchParams where
  width : ℕ
  height : ℕ
  subframe_index : ℕ
  samples_per_launch : ℕ
  eye : Vec3
  u : Vec3
  v : Vec3
  w : Vec3

/-- `__raygen__rg` (`shader.cu` lines 115–171) for one pixel
`(px, py)`: seed from `tea` of the pixel linear index and the frame
index, `samples_per_launch` samples, average, temporal blend against the
previous accumulation-buffer value `prev`.  Returns the value stored
back into the accumulation buffer. -/
def raygen (traceR : Vec3 → Vec3 → Intersection → Intersection)
    (p : LaunchParams) (prev : Vec3) (px py : ℕ) : Vec3 :=
  let size2 : Vec2 := ⟨(p.width : ℝ), (p.height : ℝ)⟩
  let idx2 : Vec2 := ⟨(px : ℝ), (py : ℝ)⟩
  let seed0 := tea (py * p.width + px) p.subframe_index
  let r := sample_loop traceR size2 idx2 p.eye p.u p.v p.w
    p.samples_per_launch seed0 zero3
  let est := smul (1 / (p.samples_per_launch : ℝ)) r.1
  store_frame prev est p.subframe_index

/-- The stored accumulation value for one pixel after frames
`0, 1, …, N` whose per-frame estimates are `e 0, e 1, …, e N`, starting
from an arbitrary initial buffer content `prev0`: each frame blends via
`store_frame`. -/
def accum_after (e : ℕ → Vec3) (prev0 : Vec3) : ℕ → Vec3
  | 0 => store_frame prev0 (e 0) 0
  | n + 1 => store_frame (accum_after e prev0 n) (e (n + 1)) (n + 1)

/-- Sum of the per-frame estimates `e 0 + ⋯ + e N`. -/
def estSum (e : ℕ → Vec3) : ℕ → Vec3
  | 0 => e 0
  | n + 1 => add3 (estSum e n) (e (n + 1))

/-! ### Basic lemmas -/

theorem dot3_comm (a b : Vec3) : dot3 a b = dot3 b a := by
  simp [dot3]; ring

theorem dot3_self_sq (v : Vec3) : dot3 v v = v.x ^ 2 + v.y ^ 2 + v.z ^ 2 := by
  simp [dot3]; ring

theorem dot3_self_nonneg (v : Vec3) : 0 ≤ dot3 v v := by
  rw [dot3_self_sq]; positivity

theorem dot3_self_pos (v : Vec3) (h : v ≠ zero3) : 0 < dot3 v v := by
  rcases lt_or_eq_of_le (dot3_self_nonneg v) with hlt | heq
  · exact hlt
  · exfalso
    apply h
    have h0 : v.x ^ 2 + v.y ^ 2 + v.z ^ 2 = 0 := by rw [← dot3_self_sq, ← heq]
    have hx : v.x = 0 := by
      have hq : v.x ^ 2 = 0 :=
        le_antisymm (by nlinarith [sq_nonneg v.y, sq_nonneg v.z]) (sq_nonneg v.x)
      exact (pow_eq_zero_iff two_ne_zero).mp hq
    have hy : v.y = 0 := by
      have hq : v.y ^ 2 = 0 :=
        le_antisymm (by nlinarith [sq_nonneg v.x, sq_nonneg v.z]) (sq_nonneg v.y)
      exact (pow_eq_zero_iff two_ne_zero).mp hq
    have hz : v.z = 0 := by
      have hq : v.z ^ 2 = 0 :=
        le_antisymm (by nlinarith [sq_nonneg v.x, sq_nonneg v.y]) (sq_nonneg v.z)
      exact (pow_eq_zero_iff two_ne_zero).mp hq
    rw [Vec3.ext_iff']
    exact ⟨hx, hy, hz⟩

theorem rnd_mem (seed : ℕ) : 0 ≤ (rnd seed).1 ∧ (rnd seed).1 < 1 := by
  constructor
  · exact div_nonneg (Nat.cast_nonneg _) (by norm_num)
  · rw [rnd, div_lt_one (by norm_num)]
    have h := Nat.mod_lt (lcg seed) (show 0 < 2 ^ 24 by norm_num)
    exact_mod_cast h

theorem rng_mem (seed : ℕ) : -1 ≤ (rng seed).1 ∧ (rng seed).1 < 1 := by
  obtain ⟨h0, h1⟩ := rnd_mem seed
  constructor
  · simp only [rng]; linarith
  · simp only [rng]; linarith

/-! ### Claim theorems -/

/-- C10: the occlusion miss program writes only `hit`; the occlusion
closest-hit program writes only `hit` and `material`; hence one
occlusion query (`trace_occlusion`) leaves the payload state's
`accum_color`, `mask_color`, `done` and `seed` untouched. -/
theorem occlusion_frame_effect (m : Material) (res : Option Material)
    (s : Intersection) :
    ((missOcclusion s).accum_color = s.accum_color ∧
     (missOcclusion s).mask_color = s.mask_color ∧
     (missOcclusion s).done = s.done ∧
     (missOcclusion s).seed = s.seed ∧
     (missOcclusion s).material = s.material ∧
     (missOcclusion s).normal = s.normal ∧
     (missOcclusion s).xyz = s.xyz) ∧
    ((closesthitOcclusion m s).accum_color = s.accum_color ∧
     (closesthitOcclusion m s).mask_color = s.mask_color ∧
     (closesthitOcclusion m s).done = s.done ∧
     (closesthitOcclusion m s).seed = s.seed ∧
     (closesthitOcclusion m s).normal = s.normal ∧
     (closesthitOcclusion m s).xyz = s.xyz) ∧
    ((trace_occlusion res s).accum_color = s.accum_color ∧
     (trace_occlusion res s).mask_color = s.mask_color ∧
     (trace_occlusion res s).done = s.done ∧
     (trace_occlusion res s).seed = s.seed) := by
  refine ⟨?_, ?_, ?_⟩
  · simp [missOcclusion]
  · by_cases hm : m.emit = true <;> simp [closesthitOcclusion, hm]
  · cases res with
    | none => simp [trace_occlusion, missOcclusion]
    | some m' => by_cases hm : m'.emit = true <;>
        simp [trace_occlusion, closesthitOcclusion, hm]

/-- C1 counterexample: in `shader2.cu` the occlusion query is traced
into the enclosing radiance path state; with a stale `hit = true` left
in that state, a probe whose first encountered object is a **non**-emitter
leaves `hit = true`, and the next-event-estimation caller inspects
`hit = true` — contradicting the claim that non-emitter occluders always
yield `hit = false` at the caller's inspection. -/
theorem occlusion_stale_hit_cex :
    (⟨zero3, ⟨5, 5, 5⟩, false⟩ : Material).emit = false ∧
    ((shoot_ray_to_light2 (fun _ _ => some ⟨zero3, ⟨5, 5, 5⟩, false⟩)
        { freshInter with hit := true }).2).hit = true := by
  constructor
  · rfl
  · show (nee_loop2 _ 7 _).2.hit = true
    rw [show (7 : ℕ) = 6 + 1 from rfl, nee_loop2]
    simp [trace_occlusion, closesthitOcclusion]

/-- C1 (amended): each occlusion query sets `hit := true` exactly when
the first object encountered is an emitter and sets `hit := false` on a
miss, but leaves `hit` unchanged when the first object is a non-emitter;
therefore, whenever the payload state enters the query with `hit = false`
(as with the fresh temporary of `shader.cu`), after the query
`hit = true` holds iff the first object encountered is an emitter, and
non-emitter occluders and misses both leave `hit = false`.  (In
`shader2.cu` the reused path state can carry a stale `hit = true`
through a non-emitter hit, see the counterexample.) -/
theorem occlusion_hit_iff_of_fresh (res : Option Material) (s : Intersection)
    (h : s.hit = false) :
    (trace_occlusion res s).hit = true ↔ ∃ m, res = some m ∧ m.emit = true := by
  cases res with
  | none => simp [trace_occlusion, missOcclusion]
  | some m =>
    by_cases hm : m.emit = true
    · simp [trace_occlusion, closesthitOcclusion, hm]
    · simp [trace_occlusion, closesthitOcclusion, hm, h]

/-- Witness for `occlusion_hit_iff_of_fresh` at a concrete emitter hit
on a fresh state. -/
theorem occlusion_hit_iff_of_fresh_witness :
    freshInter.hit = false ∧
    ((trace_occlusion (some ⟨zero3, ones3, true⟩) freshInter).hit = true ↔
      ∃ m, (some (⟨zero3, ones3, true⟩ : Material)) = some m ∧ m.emit = true) :=
  ⟨rfl, occlusion_hit_iff_of_fresh (some ⟨zero3, ones3, true⟩) freshInter rfl⟩

/-- Mean value of the accumulation buffer after `n+1` frames. -/
theorem accum_after_eq_mean (e : ℕ → Vec3) (prev0 : Vec3) (n : ℕ) :
    accum_after e prev0 n = smul (1 / ((n : ℝ) + 1)) (estSum e n) := by
  induction n with
  | zero =>
    simp [accum_after, store_frame, estSum, smul, Vec3.ext_iff']
  | succ k ih =>
    have hk : ((k : ℝ) + 1) ≠ 0 := by positivity
    have hk2 : ((k : ℝ) + 1 + 1) ≠ 0 := by positivity
    rw [accum_after, ih, store_frame, if_pos (Nat.succ_pos k), Vec3.ext_iff']
    refine ⟨?_, ?_, ?_⟩ <;>
    · simp [lerpV, add3, sub3, smul, estSum]
      field_simp
      ring

/-- C3: with per-frame estimates `e 0, …, e N`, the stored accumulation
cell equals `e 0` after frame 0 (no blend, whatever the buffer held
before), `(e 0 + e 1) / 2` after frame 1, and the arithmetic mean of all
`N + 1` estimates after frame `N`, where each frame blends with weight
`1/(frame_index+1)` via `store_frame`. -/
theorem accum_blend_mean (e : ℕ → Vec3) (prev0 : Vec3) :
    accum_after e prev0 0 = e 0 ∧
    accum_after e prev0 1 = smul (1 / 2) (add3 (e 0) (e 1)) ∧
    ∀ n : ℕ, accum_after e prev0 n = smul (1 / ((n : ℝ) + 1)) (estSum e n) := by
  refine ⟨?_, ?_, accum_after_eq_mean e prev0⟩
  · simp [accum_after, store_frame]
  · rw [accum_after_eq_mean e prev0 1]
    norm_num [estSum]

theorem dot3_neg_left (a b : Vec3) : dot3 (neg3 a) b = -dot3 a b := by
  simp [dot3, neg3]; ring

theorem dot3_smul_left (t : ℝ) (a b : Vec3) : dot3 (smul t a) b = t * dot3 a b := by
  simp [dot3, smul]; ring

theorem dot3_smul_right (t : ℝ) (a b : Vec3) : dot3 a (smul t b) = t * dot3 a b := by
  simp [dot3, smul]; ring

theorem dot3_normalize_self (v : Vec3) (h : v ≠ zero3) :
    dot3 (normalize3 v) (normalize3 v) = 1 := by
  have hpos := dot3_self_pos v h
  rw [normalize3, dot3_smul_left, dot3_smul_right]
  rw [show (1 / Real.sqrt (dot3 v v)) * ((1 / Real.sqrt (dot3 v v)) * dot3 v v) =
      dot3 v v / (Real.sqrt (dot3 v v)) ^ 2 by ring]
  rw [Real.sq_sqrt (le_of_lt hpos)]
  exact div_self (ne_of_gt hpos)

/-- C6: `shoot_ray_hemisphere` draws three signed samples, normalizes the
resulting vector and face-forwards it against the shading normal; as
long as the drawn vector is nonzero, the returned direction has unit
length and a non-negative dot product with the normal. -/
theorem hemisphere_unit_faceforward (normal : Vec3) (seed : ℕ)
    (h : (hemisphere_raw seed).1 ≠ zero3) :
    dot3 (shoot_ray_hemisphere normal seed).1 (shoot_ray_hemisphere normal seed).1 = 1 ∧
    0 ≤ dot3 (shoot_ray_hemisphere normal seed).1 normal := by
  set v := (hemisphere_raw seed).1 with hv
  have hunit := dot3_normalize_self v h
  rw [shoot_ray_hemisphere]
  simp only [faceforward]
  by_cases hd : 0 ≤ dot3 normal (normalize3 v)
  · rw [if_pos hd]
    exact ⟨hunit, by rw [dot3_comm]; exact hd⟩
  · rw [if_neg hd]
    refine ⟨?_, ?_⟩
    · rw [show dot3 (neg3 (normalize3 v)) (neg3 (normalize3 v)) =
          dot3 (normalize3 v) (normalize3 v) by simp [dot3, neg3]]
      exact hunit
    · rw [dot3_neg_left, dot3_comm]
      have := lt_of_not_le hd
      linarith

/-- Witness for `hemisphere_unit_faceforward` at seed 0 with normal
`(1,2,3)`: the first drawn sample is nonzero. -/
theorem hemisphere_unit_faceforward_witness :
    (hemisphere_raw 0).1 ≠ zero3 ∧
    (dot3 (shoot_ray_hemisphere ⟨1, 2, 3⟩ 0).1 (shoot_ray_hemisphere ⟨1, 2, 3⟩ 0).1 = 1 ∧
     0 ≤ dot3 (shoot_ray_hemisphere ⟨1, 2, 3⟩ 0).1 ⟨1, 2, 3⟩) := by
  have hx : (rng 0).1 ≠ 0 := by norm_num [rng, rnd, lcg]
  have hne : (hemisphere_raw 0).1 ≠ zero3 := by
    intro hEq
    exact hx (by simpa [hemisphere_raw, zero3] using congrArg Vec3.x hEq)
  exact ⟨hne, hemisphere_unit_faceforward ⟨1, 2, 3⟩ 0 hne⟩

theorem normalize2_comp_le (a b : ℝ) (hab : ¬(a = 0 ∧ b = 0)) :
    (-1 ≤ (normalize2 ⟨a, b⟩).x ∧ (normalize2 ⟨a, b⟩).x ≤ 1) ∧
    (-1 ≤ (normalize2 ⟨a, b⟩).y ∧ (normalize2 ⟨a, b⟩).y ≤ 1) := by
  have hpos : 0 < a * a + b * b := by
    rcases not_and_or.mp hab with h | h
    · nlinarith [mul_self_nonneg b, (mul_self_pos).mpr h]
    · nlinarith [mul_self_nonneg a, (mul_self_pos).mpr h]
  have hL : 0 < Real.sqrt (a * a + b * b) := Real.sqrt_pos.mpr hpos
  have habs : ∀ c : ℝ, c * c ≤ a * a + b * b →
      -1 ≤ c * (1 / Real.sqrt (a * a + b * b)) ∧
      c * (1 / Real.sqrt (a * a + b * b)) ≤ 1 := by
    intro c hc
    have hcabs : |c| ≤ Real.sqrt (a * a + b * b) := by
      rw [show c * c = c ^ 2 by ring] at hc
      calc |c| = Real.sqrt (c ^ 2) := (Real.sqrt_sq_eq_abs c).symm
      _ ≤ Real.sqrt (a * a + b * b) := Real.sqrt_le_sqrt (by linarith)
    have h1 : |c * (1 / Real.sqrt (a * a + b * b))| ≤ 1 := by
      rw [abs_mul, abs_of_pos (by positivity : (0:ℝ) < 1 / Real.sqrt (a * a + b * b))]
      rw [mul_one_div, div_le_one hL]
      exact hcabs
    exact abs_le.mp h1
  exact ⟨habs a (by linarith [mul_self_nonneg b]),
         habs b (by linarith [mul_self_nonneg a])⟩

/-- C7: the anti-aliasing jitter components lie in `[-1, 1]`: the
`shader2.cu` jitter is two raw `rng` samples, each in `[-1, 1)`; the
`shader.cu` jitter is the normalized pair, whose components lie in
`[-1, 1]` whenever the raw pair is nonzero. -/
theorem jitter_range (seed : ℕ) :
    (-1 ≤ ((aa_jitter2 seed).1).x ∧ ((aa_jitter2 seed).1).x ≤ 1 ∧
     -1 ≤ ((aa_jitter2 seed).1).y ∧ ((aa_jitter2 seed).1).y ≤ 1) ∧
    ((⟨(rng seed).1, (rng (rng seed).2).1⟩ : Vec2) ≠ ⟨0, 0⟩ →
     -1 ≤ ((aa_jitter seed).1).x ∧ ((aa_jitter seed).1).x ≤ 1 ∧
     -1 ≤ ((aa_jitter seed).1).y ∧ ((aa_jitter seed).1).y ≤ 1) := by
  constructor
  · obtain ⟨ha0, ha1⟩ := rng_mem seed
    obtain ⟨hb0, hb1⟩ := rng_mem (rng seed).2
    exact ⟨by simpa [aa_jitter2] using ha0, by simp [aa_jitter2]; linarith,
           by simpa [aa_jitter2] using hb0, by simp [aa_jitter2]; linarith⟩
  · intro hne
    have hab : ¬((rng seed).1 = 0 ∧ (rng (rng seed).2).1 = 0) := by
      intro hcon
      exact hne (by rw [Vec2.mk.injEq]; exact hcon)
    obtain ⟨⟨hx1, hx2⟩, hy1, hy2⟩ := normalize2_comp_le _ _ hab
    exact ⟨by simpa [aa_jitter] using hx1, by simpa [aa_jitter] using hx2,
           by simpa [aa_jitter] using hy1, by simpa [aa_jitter] using hy2⟩

/-- Witness for `jitter_range` at seed 0: the raw pair of samples is
nonzero, so both variants' jitter components lie in `[-1, 1]`. -/
theorem jitter_range_witness :
    ((⟨(rng 0).1, (rng (rng 0).2).1⟩ : Vec2) ≠ ⟨0, 0⟩) ∧
    (-1 ≤ ((aa_jitter 0).1).x ∧ ((aa_jitter 0).1).x ≤ 1 ∧
     -1 ≤ ((aa_jitter 0).1).y ∧ ((aa_jitter 0).1).y ≤ 1) ∧
    (-1 ≤ ((aa_jitter2 0).1).x ∧ ((aa_jitter2 0).1).x ≤ 1 ∧
     -1 ≤ ((aa_jitter2 0).1).y ∧ ((aa_jitter2 0).1).y ≤ 1) := by
  have hx : (rng 0).1 ≠ 0 := by norm_num [rng, rnd, lcg]
  have hne : (⟨(rng 0).1, (rng (rng 0).2).1⟩ : Vec2) ≠ ⟨0, 0⟩ := by
    intro hEq
    exact hx (by simpa using congrArg Vec2.x hEq)
  exact ⟨hne, (jitter_range 0).2 hne, (jitter_range 0).1⟩

theorem shoot_ray_hemisphere_snd (normal : Vec3) (seed : ℕ) :
    (shoot_ray_hemisphere normal seed).2 = stepSeed seed := rfl

theorem neeDir_zero (normal : Vec3) (seed : ℕ) :
    neeDir normal seed 0 = (shoot_ray_hemisphere normal seed).1 := by
  rw [neeDir, neeSeed, Function.iterate_zero_apply]

theorem neeDir_step (normal : Vec3) (seed k : ℕ) :
    neeDir normal (stepSeed seed) k = neeDir normal seed (k + 1) := by
  rw [neeDir, neeDir, neeSeed, neeSeed, Function.iterate_succ_apply]

theorem emitterAt_step (scene : Vec3 → Vec3 → Option Material)
    (normal xyz : Vec3) (seed k : ℕ) :
    emitterAt scene normal xyz (stepSeed seed) k ↔
      emitterAt scene normal xyz seed (k + 1) := by
  simp [emitterAt, neeDir_step]

theorem trace_fresh_hit_false (res : Option Material)
    (h : ∀ m, res = some m → m.emit = false) :
    (trace_occlusion res freshInter).hit = false := by
  cases res with
  | none => rfl
  | some m => simp [trace_occlusion, closesthitOcclusion, h m rfl, freshInter]

theorem trace_fresh_emitter (m : Material) (hm : m.emit = true) :
    trace_occlusion (some m) freshInter =
      { freshInter with material := m, hit := true } := by
  simp [trace_occlusion, closesthitOcclusion, hm]

theorem nee_loop_count_le (scene : Vec3 → Vec3 → Option Material)
    (normal xyz : Vec3) :
    ∀ n seed, (nee_loop scene normal xyz n seed).2.2 ≤ n := by
  intro n
  induction n with
  | zero => intro seed; simp [nee_loop]
  | succ k ih =>
    intro seed
    simp only [nee_loop]
    split
    · simp
    · simpa using Nat.succ_le_succ (ih _)

theorem nee_loop_all_miss (scene : Vec3 → Vec3 → Option Material)
    (normal xyz : Vec3) :
    ∀ n seed, (∀ k, k < n → ¬ emitterAt scene normal xyz seed k) →
      (nee_loop scene normal xyz n seed).1 = zero3 := by
  intro n
  induction n with
  | zero => intro seed _; rfl
  | succ k ih =>
    intro seed hk
    have h0 : ¬ emitterAt scene normal xyz seed 0 := hk 0 (Nat.succ_pos k)
    have hfalse :
        (trace_occlusion (scene xyz (shoot_ray_hemisphere normal seed).1)
          freshInter).hit = false := by
      apply trace_fresh_hit_false
      intro m hm
      by_contra hmm
      exact h0 ⟨m, by rw [neeDir_zero]; exact hm, by simpa using hmm⟩
    simp only [nee_loop, hfalse, Bool.false_eq_true, if_false]
    rw [shoot_ray_hemisphere_snd]
    apply ih
    intro j hj
    rw [emitterAt_step]
    exact hk (j + 1) (Nat.succ_lt_succ hj)

theorem nee_loop_first_emitter (scene : Vec3 → Vec3 → Option Material)
    (normal xyz : Vec3) :
    ∀ n k seed m, k < n →
      (∀ j, j < k → ¬ emitterAt scene normal xyz seed j) →
      scene xyz (neeDir normal seed k) = some m → m.emit = true →
      (nee_loop scene normal xyz n seed).1 =
        smul (clampR (dot3 normal (neeDir normal seed k)) 0 1) m.emission_color := by
  intro n
  induction n with
  | zero => intro k seed m hk; exact fun _ _ _ => absurd hk (Nat.not_lt_zero k)
  | succ nn ih =>
    intro k seed m hk hmin hsc hemit
    cases k with
    | zero =>
      rw [neeDir_zero] at hsc ⊢
      simp only [nee_loop, hsc, trace_fresh_emitter m hemit]
      simp
    | succ kk =>
      have h0 : ¬ emitterAt scene normal xyz seed 0 := hmin 0 (Nat.succ_pos kk)
      have hfalse :
          (trace_occlusion (scene xyz (shoot_ray_hemisphere normal seed).1)
            freshInter).hit = false := by
        apply trace_fresh_hit_false
        intro m' hm'
        by_contra hmm
        exact h0 ⟨m', by rw [neeDir_zero]; exact hm', by simpa using hmm⟩
      simp only [nee_loop, hfalse, Bool.false_eq_true, if_false]
      rw [shoot_ray_hemisphere_snd]
      have hmin' : ∀ j, j < kk → ¬ emitterAt scene normal xyz (stepSeed seed) j := by
        intro j hj
        rw [emitterAt_step]
        exact hmin (j + 1) (Nat.succ_lt_succ hj)
      have hsc' : scene xyz (neeDir normal (stepSeed seed) kk) = some m := by
        rw [neeDir_step]; exact hsc
      have := ih kk (stepSeed seed) m (Nat.lt_of_succ_lt_succ hk) hmin' hsc' hemit
      rw [this, neeDir_step]

theorem clampR_eq_max (d : ℝ) (h : d ≤ 1) : clampR d 0 1 = max d 0 := by
  rw [clampR, min_eq_right (max_le (by norm_num) h), max_comm]

/-- C2: the next-event-estimation sampler issues at most 7 occlusion
probes; if no probe's first-encountered object is an emitter it returns
`(0,0,0)`; and on the first probe `k` whose first-encountered object is
an emitter `m` it returns `max(dot(normal, direction_k), 0) * m.emission_color`
immediately (the code's `clamp(dot,0,1)` agrees with `max(dot,0)` under
the hypothesis `dot ≤ 1`, which holds for the unit direction and
at-most-unit interpolated normals). -/
theorem nee_sampler_contract (scene : Vec3 → Vec3 → Option Material)
    (inter : Intersection) :
    (shoot_ray_to_light scene inter).2.2 ≤ 7 ∧
    ((∀ k, k < 7 → ¬ emitterAt scene inter.normal inter.xyz inter.seed k) →
      (shoot_ray_to_light scene inter).1 = zero3) ∧
    (∀ k m, k < 7 →
      (∀ j, j < k → ¬ emitterAt scene inter.normal inter.xyz inter.seed j) →
      scene inter.xyz (neeDir inter.normal inter.seed k) = some m →
      m.emit = true →
      dot3 inter.normal (neeDir inter.normal inter.seed k) ≤ 1 →
      (shoot_ray_to_light scene inter).1 =
        smul (max (dot3 inter.normal (neeDir inter.normal inter.seed k)) 0)
          m.emission_color) := by
  refine ⟨nee_loop_count_le scene inter.normal inter.xyz nee_count inter.seed,
          fun h => nee_loop_all_miss scene inter.normal inter.xyz nee_count inter.seed h,
          fun k m hk hmin hsc hemit hdot => ?_⟩
  rw [show (shoot_ray_to_light scene inter).1 =
      (nee_loop scene inter.normal inter.xyz nee_count inter.seed).1 from rfl]
  rw [nee_loop_first_emitter scene inter.normal inter.xyz nee_count k inter.seed m hk hmin hsc hemit]
  rw [clampR_eq_max _ hdot]

/-- Witness for `nee_sampler_contract`: with an all-miss scene the
sampler returns zero radiance (and issues at most 7 probes); with a
scene whose every first hit is a fixed emitter, the very first probe
returns `max(dot,0) * emission`. -/
theorem nee_sampler_contract_witness :
    ((shoot_ray_to_light (fun _ _ => none) freshInter).2.2 ≤ 7 ∧
     (shoot_ray_to_light (fun _ _ => none) freshInter).1 = zero3) ∧
    (shoot_ray_to_light (fun _ _ => some ⟨zero3, ⟨2, 3, 4⟩, true⟩) freshInter).1 =
      smul (max (dot3 freshInter.normal (neeDir freshInter.normal freshInter.seed 0)) 0)
        ((⟨zero3, ⟨2, 3, 4⟩, true⟩ : Material).emission_color) := by
  refine ⟨⟨(nee_sampler_contract (fun _ _ => none) freshInter).1,
           (nee_sampler_contract (fun _ _ => none) freshInter).2.1 ?_⟩,
          (nee_sampler_contract (fun _ _ => some ⟨zero3, ⟨2, 3, 4⟩, true⟩) freshInter).2.2
            0 ⟨zero3, ⟨2, 3, 4⟩, true⟩ (by norm_num) (fun j hj => absurd hj (Nat.not_lt_zero j))
            rfl rfl ?_⟩
  · intro k _
    simp [emitterAt]
  · show dot3 freshInter.normal _ ≤ 1
    simp [freshInter, dot3, zero3]

theorem bounce_loop_count_le (traceR : Vec3 → Vec3 → Intersection → Intersection) :
    ∀ n (o d : Vec3) (s : Intersection) (seed : ℕ),
      (bounce_loop traceR n o d s seed).2.2 ≤ n := by
  intro n
  induction n with
  | zero => intro o d s seed; simp [bounce_loop]
  | succ k ih =>
    intro o d s seed
    simp only [bounce_loop]
    split
    · simp
    · simpa using Nat.succ_le_succ (ih _ _ _ _)

theorem bounce_loop_zero (traceR : Vec3 → Vec3 → Intersection → Intersection)
    (o d : Vec3) (s : Intersection) (seed : ℕ) :
    bounce_loop traceR 0 o d s seed = (s, seed, 0) := rfl

theorem bounce_loop_never_done (traceR : Vec3 → Vec3 → Intersection → Intersection)
    (h : ∀ (o d : Vec3) (s : Intersection), (traceR o d s).done = false)
    (n : ℕ) (o d : Vec3) (s : Intersection) (seed : ℕ) :
    bounce_loop traceR (n + 1) o d s seed =
      (let s1 := traceR o d { s with done := false }
       let r := bounce_loop traceR n s1.xyz
         ((shoot_ray_hemisphere s1.normal seed).1) s1 s1.seed
       (r.1, r.2.1, r.2.2 + 1)) := by
  simp only [bounce_loop, h, Bool.false_eq_true, if_false]

/-- C4: the bounce loop of `__raygen__rg` issues at most `nb_bounces = 3`
radiance queries and terminates; when no query ever sets `done` (a scene
of all non-emissive diffuse surfaces and no miss), it terminates after
exactly the bounce budget, returning the state produced by the third
radiance query — no further radiance is added beyond what the three
completed bounces contributed. -/
theorem bounce_budget_spec (traceR : Vec3 → Vec3 → Intersection → Intersection)
    (o d : Vec3) (s : Intersection) (seed : ℕ) :
    (bounce_loop traceR nb_bounces o d s seed).2.2 ≤ nb_bounces ∧
    ((∀ (o' d' : Vec3) (s' : Intersection), (traceR o' d' s').done = false) →
      bounce_loop traceR nb_bounces o d s seed =
        (let s1 := traceR o d { s with done := false }
         let s2 := traceR s1.xyz ((shoot_ray_hemisphere s1.normal seed).1)
           { s1 with done := false }
         let s3 := traceR s2.xyz ((shoot_ray_hemisphere s2.normal s1.seed).1)
           { s2 with done := false }
         (s3, s3.seed, 3))) := by
  refine ⟨bounce_loop_count_le traceR nb_bounces o d s seed, fun h => ?_⟩
  show bounce_loop traceR (0 + 1 + 1 + 1) o d s seed = _
  simp only [bounce_loop_never_done traceR h, bounce_loop_zero]

/-- Witness for `bounce_budget_spec`: with a radiance oracle that never
sets `done`, exactly 3 radiance queries are issued. -/
theorem bounce_budget_spec_witness :
    (bounce_loop (fun _ _ s => { s with done := false }) nb_bounces
      zero3 zero3 freshInter 0).2.2 = 3 := by
  have h : ∀ (o' d' : Vec3) (s' : Intersection),
      ((fun (_ _ : Vec3) (s : Intersection) => { s with done := false }) o' d' s').done
        = false := fun _ _ _ => rfl
  have hres := (bounce_budget_spec (fun _ _ s => { s with done := false })
    zero3 zero3 freshInter 0).2 h
  rw [hres]

theorem vecLE3_refl (a : Vec3) : vecLE3 a a :=
  ⟨le_refl _, le_refl _, le_refl _⟩

/-- C8: a fresh path state starts with `mask_color = (1,1,1)`, and one
radiance closest-hit step leaves each channel of `mask_color` no larger
than before (the emitter branch leaves it unchanged, the diffuse branch
multiplies it by a diffuse color with channels in `[0,1]`); channel
non-negativity is preserved, so the invariant can be iterated over the
bounces. -/
theorem mask_color_monotone (scene : Vec3 → Vec3 → Option Material)
    (mat : Material) (v1 v2 v3 n1 n2 n3 ray_origin ray_dir : Vec3) (tmax : ℝ)
    (s : Intersection)
    (hm : vecLE3 zero3 s.mask_color)
    (hd0 : vecLE3 zero3 mat.diffuse_color)
    (hd1 : vecLE3 mat.diffuse_color ones3) :
    freshInter.mask_color = ones3 ∧
    vecLE3 (closesthit_radiance scene mat v1 v2 v3 n1 n2 n3 ray_origin ray_dir tmax
      s).mask_color s.mask_color ∧
    vecLE3 zero3 (closesthit_radiance scene mat v1 v2 v3 n1 n2 n3 ray_origin ray_dir tmax
      s).mask_color := by
  obtain ⟨hmx, hmy, hmz⟩ := hm
  obtain ⟨hd0x, hd0y, hd0z⟩ := hd0
  obtain ⟨hd1x, hd1y, hd1z⟩ := hd1
  simp only [zero3, ones3] at *
  refine ⟨rfl, ?_, ?_⟩
  · by_cases he : mat.emit = true
    · simp only [closesthit_radiance, he, if_true]
      exact vecLE3_refl _
    · simp only [closesthit_radiance, he, Bool.false_eq_true, if_false]
      refine ⟨?_, ?_, ?_⟩ <;>
        simp only [mul3] <;>
        [exact mul_le_of_le_one_right hmx hd1x;
         exact mul_le_of_le_one_right hmy hd1y;
         exact mul_le_of_le_one_right hmz hd1z]
  · by_cases he : mat.emit = true
    · simp only [closesthit_radiance, he, if_true]
      exact ⟨hmx, hmy, hmz⟩
    · simp only [closesthit_radiance, he, Bool.false_eq_true, if_false]
      exact ⟨mul_nonneg hmx hd0x, mul_nonneg hmy hd0y, mul_nonneg hmz hd0z⟩

/-- Witness for `mask_color_monotone` on a fresh state and a half-gray
diffuse material. -/
theorem mask_color_monotone_witness :
    vecLE3 zero3 freshInter.mask_color ∧
    vecLE3 zero3 ((⟨⟨1/2, 1/2, 1/2⟩, zero3, false⟩ : Material).diffuse_color) ∧
    vecLE3 ((⟨⟨1/2, 1/2, 1/2⟩, zero3, false⟩ : Material).diffuse_color) ones3 ∧
    (freshInter.mask_color = ones3 ∧
     vecLE3 (closesthit_radiance (fun _ _ => none) ⟨⟨1/2, 1/2, 1/2⟩, zero3, false⟩
       zero3 zero3 zero3 zero3 zero3 zero3 zero3 zero3 0 freshInter).mask_color
       freshInter.mask_color ∧
     vecLE3 zero3 (closesthit_radiance (fun _ _ => none) ⟨⟨1/2, 1/2, 1/2⟩, zero3, false⟩
       zero3 zero3 zero3 zero3 zero3 zero3 zero3 zero3 0 freshInter).mask_color) := by
  have hm : vecLE3 zero3 freshInter.mask_color := by
    refine ⟨?_, ?_, ?_⟩ <;> norm_num [freshInter, zero3, ones3]
  have hd0 : vecLE3 zero3 ((⟨⟨1/2, 1/2, 1/2⟩, zero3, false⟩ : Material).diffuse_color) := by
    refine ⟨?_, ?_, ?_⟩ <;> norm_num [zero3]
  have hd1 : vecLE3 ((⟨⟨1/2, 1/2, 1/2⟩, zero3, false⟩ : Material).diffuse_color) ones3 := by
    refine ⟨?_, ?_, ?_⟩ <;> norm_num [ones3]
  exact ⟨hm, hd0, hd1,
    mask_color_monotone (fun _ _ => none) ⟨⟨1/2, 1/2, 1/2⟩, zero3, false⟩
      zero3 zero3 zero3 zero3 zero3 zero3 zero3 zero3 0 freshInter hm hd0 hd1⟩

/-- C9: the per-pixel ray-generation computation is a pure function of
the launch parameters, the previous accumulation value and the pixel
index — its seed is derived deterministically as `tea` of the pixel
linear index and the frame index — so two executions with equal inputs
produce identical stored `accum_color`. -/
theorem raygen_deterministic (traceR : Vec3 → Vec3 → Intersection → Intersection)
    (p q : LaunchParams) (prev1 prev2 : Vec3) (px1 px2 py1 py2 : ℕ)
    (hp : p = q) (hprev : prev1 = prev2) (hx : px1 = px2) (hy : py1 = py2) :
    raygen traceR p prev1 px1 py1 = raygen traceR q prev2 px2 py2 := by
  subst hp; subst hprev; subst hx; subst hy; rfl

/-- Witness for `raygen_deterministic` at a concrete launch
configuration. -/
theorem raygen_deterministic_witness :
    raygen (fun _ _ s => s) ⟨4, 4, 0, 1, zero3, zero3, zero3, ones3⟩ zero3 1 2 =
      raygen (fun _ _ s => s) ⟨4, 4, 0, 1, zero3, zero3, zero3, ones3⟩ zero3 1 2 :=
  raygen_deterministic (fun _ _ s => s) ⟨4, 4, 0, 1, zero3, zero3, zero3, ones3⟩
    ⟨4, 4, 0, 1, zero3, zero3, zero3, ones3⟩ zero3 zero3 1 1 2 2 rfl rfl rfl rfl

theorem dot3_comb_left (b c : ℝ) (u w t : Vec3) :
    dot3 (add3 (smul b u) (smul c w)) t = b * dot3 u t + c * dot3 w t := by
  simp [dot3, add3, smul]; ring

theorem solve2x2 (d00 d01 d11 β γ : ℝ) (hden : d00 * d11 - d01 * d01 ≠ 0) :
    (d11 * (β * d00 + γ * d01) - d01 * (β * d01 + γ * d11)) /
      (d00 * d11 - d01 * d01) = β ∧
    (d00 * (β * d01 + γ * d11) - d01 * (β * d00 + γ * d01)) /
      (d00 * d11 - d01 * d01) = γ := by
  constructor <;> (rw [div_eq_iff hden]; ring)

/-- C5 (amended): in `shader.cu`, for a non-degenerate triangle and a
hit point written as an affine combination `α v1 + β v2 + γ v3` with
`α + β + γ = 1`, `barycentric_normal` solves the 2×2 system of projected
edge dot-products and returns exactly `α n1 + β n2 + γ n3` — the
barycentric interpolation of the vertex normals.  (In `shader2.cu` the
function of the same name ignores the vertex normals and returns the
face-forwarded geometric face normal instead, see the counterexample.) -/
theorem barycentric_normal_interp (hit_point n1 n2 n3 v1 v2 v3 : Vec3)
    (α β γ : ℝ) (hsum : α + β + γ = 1)
    (hp : hit_point = add3 (add3 (smul α v1) (smul β v2)) (smul γ v3))
    (hdenom : dot3 (sub3 v2 v1) (sub3 v2 v1) * dot3 (sub3 v3 v1) (sub3 v3 v1) -
      dot3 (sub3 v2 v1) (sub3 v3 v1) * dot3 (sub3 v2 v1) (sub3 v3 v1) ≠ 0) :
    barycentric_normal hit_point n1 n2 n3 v1 v2 v3 =
      add3 (add3 (smul α n1) (smul β n2)) (smul γ n3) := by
  have hα : α = 1 - β - γ := by linarith
  subst hα
  subst hp
  have hi : sub3 (add3 (add3 (smul (1 - β - γ) v1) (smul β v2)) (smul γ v3)) v1 =
      add3 (smul β (sub3 v2 v1)) (smul γ (sub3 v3 v1)) := by
    rw [Vec3.ext_iff']
    refine ⟨?_, ?_, ?_⟩ <;> (simp [add3, sub3, smul]; ring)
  have hd20 : dot3 (sub3 (add3 (add3 (smul (1 - β - γ) v1) (smul β v2)) (smul γ v3)) v1)
      (sub3 v2 v1) =
      β * dot3 (sub3 v2 v1) (sub3 v2 v1) + γ * dot3 (sub3 v2 v1) (sub3 v3 v1) := by
    rw [hi, dot3_comb_left, dot3_comm (sub3 v3 v1) (sub3 v2 v1)]
  have hd21 : dot3 (sub3 (add3 (add3 (smul (1 - β - γ) v1) (smul β v2)) (smul γ v3)) v1)
      (sub3 v3 v1) =
      β * dot3 (sub3 v2 v1) (sub3 v3 v1) + γ * dot3 (sub3 v3 v1) (sub3 v3 v1) := by
    rw [hi, dot3_comb_left]
  simp only [barycentric_normal]
  rw [hd20, hd21]
  rw [(solve2x2 (dot3 (sub3 v2 v1) (sub3 v2 v1)) (dot3 (sub3 v2 v1) (sub3 v3 v1))
        (dot3 (sub3 v3 v1) (sub3 v3 v1)) β γ hdenom).1,
      (solve2x2 (dot3 (sub3 v2 v1) (sub3 v2 v1)) (dot3 (sub3 v2 v1) (sub3 v3 v1))
        (dot3 (sub3 v3 v1) (sub3 v3 v1)) β γ hdenom).2]

/-- Witness for `barycentric_normal_interp` at the unit right triangle
with hit point at its centroid. -/
theorem barycentric_normal_interp_witness :
    ((1:ℝ)/3 + 1/3 + 1/3 = 1) ∧
    ((⟨1/3, 1/3, 0⟩ : Vec3) =
      add3 (add3 (smul (1/3) ⟨0, 0, 0⟩) (smul (1/3) ⟨1, 0, 0⟩)) (smul (1/3) ⟨0, 1, 0⟩)) ∧
    (dot3 (sub3 ⟨1, 0, 0⟩ ⟨0, 0, 0⟩) (sub3 ⟨1, 0, 0⟩ ⟨0, 0, 0⟩) *
        dot3 (sub3 ⟨0, 1, 0⟩ ⟨0, 0, 0⟩) (sub3 ⟨0, 1, 0⟩ ⟨0, 0, 0⟩) -
      dot3 (sub3 ⟨1, 0, 0⟩ ⟨0, 0, 0⟩) (sub3 ⟨0, 1, 0⟩ ⟨0, 0, 0⟩) *
        dot3 (sub3 ⟨1, 0, 0⟩ ⟨0, 0, 0⟩) (sub3 ⟨0, 1, 0⟩ ⟨0, 0, 0⟩) ≠ 0) ∧
    barycentric_normal ⟨1/3, 1/3, 0⟩ ⟨1, 0, 0⟩ ⟨0, 1, 0⟩ ⟨0, 0, 1⟩
        ⟨0, 0, 0⟩ ⟨1, 0, 0⟩ ⟨0, 1, 0⟩ =
      add3 (add3 (smul (1/3) ⟨1, 0, 0⟩) (smul (1/3) ⟨0, 1, 0⟩)) (smul (1/3) ⟨0, 0, 1⟩) := by
  have h1 : ((1:ℝ)/3 + 1/3 + 1/3 = 1) := by norm_num
  have h2 : ((⟨1/3, 1/3, 0⟩ : Vec3) =
      add3 (add3 (smul (1/3) ⟨0, 0, 0⟩) (smul (1/3) ⟨1, 0, 0⟩)) (smul (1/3) ⟨0, 1, 0⟩)) := by
    rw [Vec3.ext_iff']
    norm_num [add3, smul]
  have h3 : (dot3 (sub3 (⟨1, 0, 0⟩ : Vec3) ⟨0, 0, 0⟩) (sub3 ⟨1, 0, 0⟩ ⟨0, 0, 0⟩) *
        dot3 (sub3 (⟨0, 1, 0⟩ : Vec3) ⟨0, 0, 0⟩) (sub3 ⟨0, 1, 0⟩ ⟨0, 0, 0⟩) -
      dot3 (sub3 (⟨1, 0, 0⟩ : Vec3) ⟨0, 0, 0⟩) (sub3 ⟨0, 1, 0⟩ ⟨0, 0, 0⟩) *
        dot3 (sub3 (⟨1, 0, 0⟩ : Vec3) ⟨0, 0, 0⟩) (sub3 ⟨0, 1, 0⟩ ⟨0, 0, 0⟩) ≠ 0) := by
    norm_num [dot3, sub3]
  exact ⟨h1, h2, h3,
    barycentric_normal_interp ⟨1/3, 1/3, 0⟩ ⟨1, 0, 0⟩ ⟨0, 1, 0⟩ ⟨0, 0, 1⟩
      ⟨0, 0, 0⟩ ⟨1, 0, 0⟩ ⟨0, 1, 0⟩ (1/3) (1/3) (1/3) h1 h2 h3⟩

/-- C5 counterexample: on the unit right triangle with hit point at the
centroid and vertex normals `(1,0,0)`, `(0,1,0)`, `(0,0,1)`, the shading
normal stored by `__closesthit__radiance` of `shader2.cu` is the
face-forwarded geometric face normal `(0,0,1)` (scaled by
`u + v + w = 1`), not the barycentric interpolation
`(1/3, 1/3, 1/3)` of the vertex normals that the claim requires. -/
theorem barycentric_normal2_cex :
    radiance_normal2 ⟨1/3, 1/3, 1⟩ ⟨0, 0, -1⟩ ⟨0, 0, 0⟩ ⟨1, 0, 0⟩ ⟨0, 1, 0⟩ 1 freshInter =
      ⟨0, 0, 1⟩ ∧
    barycentric_normal ⟨1/3, 1/3, 0⟩ ⟨1, 0, 0⟩ ⟨0, 1, 0⟩ ⟨0, 0, 1⟩
        ⟨0, 0, 0⟩ ⟨1, 0, 0⟩ ⟨0, 1, 0⟩ = ⟨1/3, 1/3, 1/3⟩ ∧
    radiance_normal2 ⟨1/3, 1/3, 1⟩ ⟨0, 0, -1⟩ ⟨0, 0, 0⟩ ⟨1, 0, 0⟩ ⟨0, 1, 0⟩ 1 freshInter ≠
      barycentric_normal ⟨1/3, 1/3, 0⟩ ⟨1, 0, 0⟩ ⟨0, 1, 0⟩ ⟨0, 0, 1⟩
        ⟨0, 0, 0⟩ ⟨1, 0, 0⟩ ⟨0, 1, 0⟩ := by
  have hL : radiance_normal2 ⟨1/3, 1/3, 1⟩ ⟨0, 0, -1⟩ ⟨0, 0, 0⟩ ⟨1, 0, 0⟩ ⟨0, 1, 0⟩ 1
      freshInter = ⟨0, 0, 1⟩ := by
    rw [radiance_normal2, Vec3.ext_iff']
    norm_num [barycentric_normal2, normalize3, cross3, faceforward, neg3, dot3,
      sub3, add3, smul, Real.sqrt_one]
  have hR : barycentric_normal ⟨1/3, 1/3, 0⟩ ⟨1, 0, 0⟩ ⟨0, 1, 0⟩ ⟨0, 0, 1⟩
      ⟨0, 0, 0⟩ ⟨1, 0, 0⟩ ⟨0, 1, 0⟩ = ⟨1/3, 1/3, 1/3⟩ := by
    rw [barycentric_normal, Vec3.ext_iff']
    norm_num [dot3, sub3, add3, smul]
  refine ⟨hL, hR, ?_⟩
  rw [hL, hR]
  intro hEq
  have := congrArg Vec3.z hEq
  norm_num at this

end LiSA

end
